import Mathlib

/-!
Shallow embedding of the Accessibility-Conversion-Tool repository
(file accessibility-tool.py) and proofs about its page-layout
reconstruction engine.

Coordinates are modelled as exact rationals (the source manipulates
Python floats produced by PyMuPDF); machine-level rounding is not part
of any claim checked here.  Fallible operations (image bbox
resolution, pixmap decoding) are modelled as explicit success /
failure data.
-/

namespace AccessConv

/-- Axis-aligned rectangle in page coordinates, mirroring the fields of
a fitz.Rect / a 4-tuple bbox `(x0, y0, x1, y1)`. -/
structure Rect where
  x0 : ℚ
  y0 : ℚ
  x1 : ℚ
  y1 : ℚ
deriving DecidableEq, Repr

/-- Width of a rectangle, as PyMuPDF computes it: max(0, x1 - x0). -/
def Rect.width (r : Rect) : ℚ := max (r.x1 - r.x0) 0

/-- Height of a rectangle, as PyMuPDF computes it: max(0, y1 - y0). -/
def Rect.height (r : Rect) : ℚ := max (r.y1 - r.y0) 0

/-- One text span of a page dictionary: literal text, origin point,
font size and bounding box (source: the span dicts read in
process_pdf). -/
structure Span where
  text : String
  origin : ℚ × ℚ
  size : ℚ
  bbox : Rect
deriving DecidableEq, Repr

/-- One text line: an ordered list of spans. -/
structure Line where
  spans : List Span
deriving DecidableEq, Repr

/-- One raw block of the page dictionary (`page.get_text("dict")["blocks"]`):
a type tag (0 = text, 1 = image), the presence flag of the "bbox" key
(process_pdf skips blocks without it; the source assumes it present in
merge_text_blocks), the bounding box and the list of lines. -/
structure Block where
  type : Nat
  hasBbox : Bool
  bbox : Rect
  lines : List Line
deriving DecidableEq, Repr

/-- One entry of `page.get_images(full=True)`: its xref, the result of
resolving its placement rectangle with `page.get_image_bbox` (none =
the lookup raised), and whether building/inserting a pixmap from it
succeeds (false = `fitz.Pixmap` / `insert_image` raises). -/
structure Img where
  xref : Nat
  bboxRes : Option Rect
  ok : Bool
deriving DecidableEq, Repr

/-- One input page as seen by process_pdf: its rectangle, its raw
blocks and its raw image list. -/
structure PageIn where
  rect : Rect
  blocks : List Block
  images : List Img
deriving DecidableEq, Repr

/- ----------------- path handling (os.path / str helpers) ----------------- -/

/-- Last index of a character in a list, if any (CPython rfind). -/
def lastIdxAux (c : Char) : List Char → Nat → Option Nat → Option Nat
  | [], _, acc => acc
  | x :: xs, i, acc => lastIdxAux c xs (i + 1) (if x = c then some i else acc)

/-- Last index of a character in a list of characters, or none. -/
def lastIdx (c : Char) (cs : List Char) : Option Nat := lastIdxAux c cs 0 none

/-- Integer result of CPython str.rfind: last index, or -1 when absent. -/
def rfindIdx (c : Char) (cs : List Char) : Int :=
  match lastIdx c cs with
  | none => -1
  | some n => n

/-- CPython posixpath.splitext on a character list: split off the
extension starting at the last dot, provided that dot lies after the
last path separator and some non-dot character stands between them. -/
def splitextChars (cs : List Char) : List Char × List Char :=
  let sepI : Int := rfindIdx '/' cs
  let dotI : Int := rfindIdx '.' cs
  if sepI < dotI then
    let d := dotI.toNat
    let s1 := (sepI + 1).toNat
    if ((cs.drop s1).take (d - s1)).any (fun ch => ch ≠ '.') then
      (cs.take d, cs.drop d)
    else (cs, [])
  else (cs, [])

/-- os.path.splitext on strings (posix separators). -/
def splitext (p : String) : String × String :=
  let r := splitextChars p.data
  (String.mk r.1, String.mk r.2)

/-- ASCII lower-casing of a string (Python str.lower on ASCII input). -/
def lowerStr (s : String) : String := String.mk (s.data.map Char.toLower)

/-- Recursion core of CPython str.replace, driven by a fuel counter so
that the recursion is structural (the fuel starts at the input length,
which bounds the number of steps; each step consumes at least one
character). -/
def replaceAllGo (pat rep : List Char) : Nat → List Char → List Char
  | _, [] => []
  | 0, l => l
  | fuel + 1, c :: cs =>
    if pat.isPrefixOf (c :: cs) && !pat.isEmpty then
      rep ++ replaceAllGo pat rep fuel (cs.drop (pat.length - 1))
    else
      c :: replaceAllGo pat rep fuel cs

/-- CPython str.replace on character lists: replace every
non-overlapping occurrence of a non-empty pattern, scanning left to
right. -/
def replaceAll (pat rep cs : List Char) : List Char :=
  replaceAllGo pat rep cs.length cs

/-- Python str.replace on strings. -/
def pyReplace (s pat rep : String) : String :=
  String.mk (replaceAll pat.data rep.data s.data)

/-- Source create_output_filename: splitext, then suffix the base with
"-Accessible-Copy" and re-append the extension. -/
def create_output_filename (input_path : String) : String :=
  let r := splitext input_path
  r.1 ++ "-Accessible-Copy" ++ r.2

/-- Output path computed by process_pdf (line 268 of the source):
`input_path.replace(".pdf", "-Accessible-Copy.pdf")`. -/
def pdf_output_path (input_path : String) : String :=
  pyReplace input_path ".pdf" "-Accessible-Copy.pdf"

/-- Observable outcome of handle_file: which processor ran and which
output path it saved to, or the unsupported-extension error. -/
inductive FileAction where
  | savedDocx (output_path : String)
  | savedPptx (output_path : String)
  | savedPdf (output_path : String)
  | unsupported (ext : String)
deriving DecidableEq, Repr

/-- Source handle_file dispatch: lower-case the extension of the path
and route to the docx / pptx / pdf processor; the returned action
carries the output path the processor saves to. -/
def handle_file (file_path : String) : FileAction :=
  let ext := lowerStr (splitext file_path).2
  if ext = ".docx" then .savedDocx (create_output_filename file_path)
  else if ext = ".pptx" then .savedPptx (create_output_filename file_path)
  else if ext = ".pdf" then .savedPdf (pdf_output_path file_path)
  else .unsupported ext

/- ----------------- GeometryUtil ----------------- -/

/-- Source snap_rect_expand_and_clamp: expand each corner outward to
the grid (floor on x0/y0, ceiling on x1/y1, each scaled by grid_size),
then clamp every edge to the page rectangle. -/
def snap_rect_expand_and_clamp (rect page_rect : Rect) (grid_size : ℚ := 10) : Rect :=
  let snapped : Rect :=
    { x0 := (⌊rect.x0 / grid_size⌋ : ℚ) * grid_size
      y0 := (⌊rect.y0 / grid_size⌋ : ℚ) * grid_size
      x1 := (⌈rect.x1 / grid_size⌉ : ℚ) * grid_size
      y1 := (⌈rect.y1 / grid_size⌉ : ℚ) * grid_size }
  { x0 := max snapped.x0 page_rect.x0
    y0 := max snapped.y0 page_rect.y0
    x1 := min snapped.x1 page_rect.x1
    y1 := min snapped.y1 page_rect.y1 }

/- ----------------- BlockMerger ----------------- -/

/-- Sort key of merge_text_blocks: `b["bbox"][1]`, the top coordinate. -/
def blockKey (b : Block) : ℚ := b.bbox.y0

/-- Stable insertion of a block into a list sorted by blockKey: the new
block goes before the first element whose key is not smaller. -/
def insertByY (b : Block) : List Block → List Block
  | [] => [b]
  | c :: cs => if blockKey b ≤ blockKey c then b :: c :: cs else c :: insertByY b cs

/-- Stable ascending sort by blockKey.  Python sorted(...) is a stable
sort by key; any stable sort by the same key computes the same list,
so insertion sort is a faithful model. -/
def sortByY : List Block → List Block
  | [] => []
  | b :: bs => insertByY b (sortByY bs)

/-- Bounding-box union assigned by the merge branch of
merge_text_blocks. -/
def unionBBox (a b : Rect) : Rect :=
  { x0 := min a.x0 b.x0, y0 := min a.y0 b.y0, x1 := max a.x1 b.x1, y1 := max a.y1 b.y1 }

/-- Loop body of merge_text_blocks once the first block has become the
current accumulator: merge the next block into the accumulator when
its top is within the threshold of the accumulator's bottom and the
left edges differ by less than 5, otherwise emit the accumulator and
continue from the next block. -/
def mergeLoop (t : ℚ) : Block → List Block → List Block
  | cur, [] => [cur]
  | cur, b :: bs =>
    if b.bbox.y0 - cur.bbox.y1 ≤ t ∧ |b.bbox.x0 - cur.bbox.x0| < 5 then
      mergeLoop t { cur with bbox := unionBBox cur.bbox b.bbox, lines := cur.lines ++ b.lines } bs
    else
      cur :: mergeLoop t b bs

/-- Source merge_text_blocks: keep only type-0 blocks, sort them by
their bbox top coordinate (stable), then run the accumulator loop;
an empty list of text blocks yields the empty result. -/
def merge_text_blocks (blocks : List Block) (vertical_threshold : ℚ := 15) : List Block :=
  match sortByY (blocks.filter (fun b => decide (b.type = 0))) with
  | [] => []
  | b :: bs => mergeLoop vertical_threshold b bs

/- ----------------- RegionExtractor ----------------- -/

/-- Background/band heuristic of extract_images_with_bboxes (source
lines 85-100): the image is near-full-page in a dimension (strictly
more than 98 percent of the page width or height, as the source
compares with >) and edge-aligned within 1 unit on the corresponding
side. -/
abbrev backgroundFilter (page_rect bbox : Rect) : Prop :=
  let near_full_width := bbox.width > page_rect.width * (98 / 100)
  let near_full_height := bbox.height > page_rect.height * (98 / 100)
  let aligned_left := |bbox.x0 - page_rect.x0| < 1
  let aligned_right := |bbox.x1 - page_rect.x1| < 1
  let aligned_top := |bbox.y0 - page_rect.y0| < 1
  let aligned_bottom := |bbox.y1 - page_rect.y1| < 1
  (near_full_width ∧ (aligned_top ∨ aligned_bottom))
    ∨ (near_full_height ∧ (aligned_left ∨ aligned_right))
    ∨ (near_full_width ∧ near_full_height ∧ aligned_left ∧ aligned_top)

/-- Source extract_images_with_bboxes: for each raw image reference,
skip it when bbox resolution raises, when a dimension is below 10, or
when the background/band heuristic fires; otherwise keep its xref and
bbox. -/
def extract_images_with_bboxes (page_rect : Rect) (imgs : List Img) : List (Nat × Rect) :=
  match imgs with
  | [] => []
  | img :: rest =>
    match img.bboxRes with
    | none => extract_images_with_bboxes page_rect rest
    | some bbox =>
      if bbox.width < 10 ∨ bbox.height < 10 then
        extract_images_with_bboxes page_rect rest
      else if backgroundFilter page_rect bbox then
        extract_images_with_bboxes page_rect rest
      else
        (img.xref, bbox) :: extract_images_with_bboxes page_rect rest

/- ----------------- PageRewriter (process_pdf) ----------------- -/

/-- One drawing or insertion call issued by process_pdf; each
constructor records the arguments passed at the call site (an Option
argument is none when the source call omits it). -/
inductive DrawOp where
  | drawRect (r : Rect) (color : Option (ℚ × ℚ × ℚ)) (fill : Option (ℚ × ℚ × ℚ))
      (width : Option ℚ) (overlay : Option Bool)
  | insertImage (r : Rect) (xref : Nat) (keepProportion : Bool)
  | insertText (pos : ℚ × ℚ) (text : String) (fontname : String) (fontsize : ℚ)
      (color : ℚ × ℚ × ℚ)
deriving DecidableEq, Repr

/-- Inner loop of process_pdf step 3: try each raw image in order,
insert the first whose pixmap decodes, log an error line for each
failure before that. -/
def insertLoop : List Img → Option Nat × List String
  | [] => (none, [])
  | img :: rest =>
    if img.ok then (some img.xref, [])
    else
      let r := insertLoop rest
      (r.1, ("Error inserting image: " ++ toString img.xref) :: r.2)

/-- Step 3 of process_pdf for one raw block: for an image block with a
bbox, draw the border rectangle and insert the first available image
payload into it; other blocks contribute nothing. -/
def imageLayerOps (imgs : List Img) (b : Block) : List DrawOp × List String :=
  if b.type = 1 ∧ b.hasBbox then
    let r := b.bbox
    let border := DrawOp.drawRect r (some (99/100, 99/100, 99/100)) none (some 1) none
    let ins := insertLoop imgs
    match ins.1 with
    | some x => ([border, DrawOp.insertImage r x true], ins.2)
    | none => ([border], ins.2)
  else ([], [])

/-- Python str.strip on character lists: drop leading and trailing
whitespace. -/
def stripChars (cs : List Char) : List Char :=
  ((cs.dropWhile Char.isWhitespace).reverse.dropWhile Char.isWhitespace).reverse

/-- Python str.strip on strings (ASCII whitespace). -/
def pyStrip (s : String) : String := String.mk (stripChars s.data)

/-- Per-span drawing of process_pdf step 4: skip spans whose stripped
text is empty, otherwise draw the white backing panel at the bbox
shifted by the margin and the black helv text at the shifted origin. -/
def spanOps (span : Span) : List DrawOp :=
  let text := pyStrip span.text
  if text = "" then []
  else
    let x := span.origin.1 + 3
    let y := span.origin.2 + 3
    let bg : Rect :=
      { x0 := span.bbox.x0 + 3, y0 := span.bbox.y0 + 3
        x1 := span.bbox.x1 + 3, y1 := span.bbox.y1 + 3 }
    [DrawOp.drawRect bg none (some (1, 1, 1)) none (some true),
     DrawOp.insertText (x, y) text "helv" span.size (0, 0, 0)]

/-- Step 4 of process_pdf for one raw block: for a text block with a
bbox that is at least 5 high and 10 wide, draw the inset grey outline
and then every span's panel and text; other blocks contribute
nothing. -/
def textBlockOps (b : Block) : List DrawOp :=
  if b.type = 0 ∧ b.hasBbox then
    let r := b.bbox
    if r.height < 5 ∨ r.width < 10 then []
    else
      let inset : Rect :=
        { x0 := r.x0 + 3, y0 := r.y0 + 3, x1 := r.x1 - 3, y1 := r.y1 - 3 }
      DrawOp.drawRect inset (some (9/10, 9/10, 9/10)) none (some (1/2)) none ::
        (b.lines.map (fun ln => (ln.spans.map spanOps).flatten)).flatten
  else []

/-- Per-page body of process_pdf: erase with a white fill, run the
image layer over every raw block, then the text layer over every raw
block; the second component collects the error lines printed by the
image-insertion loop. -/
def processPage (page : PageIn) : List DrawOp × List String :=
  let erase := DrawOp.drawRect page.rect (some (1, 1, 1)) (some (1, 1, 1)) none none
  let imgStep := page.blocks.map (imageLayerOps page.images)
  let imgOps := (imgStep.map Prod.fst).flatten
  let imgLogs := (imgStep.map Prod.snd).flatten
  let txtOps := (page.blocks.map textBlockOps).flatten
  (erase :: imgOps ++ txtOps, imgLogs)

/-- Result of process_pdf: the per-page draw-call lists, the error
lines printed along the way, and the path the document is saved to. -/
structure PdfResult where
  pages : List (List DrawOp)
  logs : List String
  output_path : String
deriving DecidableEq, Repr

/-- Source process_pdf: iterate the per-page rewrite over the document
and save to `input_path.replace(".pdf", "-Accessible-Copy.pdf")`.  The
grid_size and merge_threshold parameters are accepted (they are passed
by handle_file) but, as in the source, never read. -/
def process_pdf (input_path : String) (doc : List PageIn)
    (grid_size : ℚ := 10) (merge_threshold : ℚ := 15) : PdfResult :=
  let per := doc.map processPage
  { pages := per.map Prod.fst
    logs := (per.map Prod.snd).flatten
    output_path := pdf_output_path input_path }

/- ----------------- grid-arithmetic lemmas ----------------- -/

/-- Flooring to a positive grid never increases the value. -/
theorem floorMul_le {x g : ℚ} (hg : 0 < g) : (⌊x / g⌋ : ℚ) * g ≤ x := by
  have h := Int.floor_le (x / g)
  have := mul_le_mul_of_nonneg_right h (le_of_lt hg)
  rwa [div_mul_cancel₀ x (ne_of_gt hg)] at this

/-- Ceiling to a positive grid never decreases the value. -/
theorem le_ceilMul {x g : ℚ} (hg : 0 < g) : x ≤ (⌈x / g⌉ : ℚ) * g := by
  have h := Int.le_ceil (x / g)
  have := mul_le_mul_of_nonneg_right h (le_of_lt hg)
  rwa [div_mul_cancel₀ x (ne_of_gt hg)] at this

/-- Flooring to a nonzero grid is idempotent. -/
theorem floorMul_floorMul {x g : ℚ} (hg : g ≠ 0) :
    (⌊((⌊x / g⌋ : ℚ) * g) / g⌋ : ℚ) * g = (⌊x / g⌋ : ℚ) * g := by
  rw [mul_div_assoc, div_self hg, mul_one, Int.floor_intCast]

/-- Ceiling to a nonzero grid is idempotent. -/
theorem ceilMul_ceilMul {x g : ℚ} (hg : g ≠ 0) :
    (⌈((⌈x / g⌉ : ℚ) * g) / g⌉ : ℚ) * g = (⌈x / g⌉ : ℚ) * g := by
  rw [mul_div_assoc, div_self hg, mul_one, Int.ceil_intCast]

/-- Lower-edge clamp of the snap is idempotent. -/
theorem clampLow_idem (x p : ℚ) {g : ℚ} (hg : 0 < g) :
    max ((⌊(max ((⌊x / g⌋ : ℚ) * g) p) / g⌋ : ℚ) * g) p = max ((⌊x / g⌋ : ℚ) * g) p := by
  rcases le_total ((⌊x / g⌋ : ℚ) * g) p with h | h
  · rw [max_eq_right h, max_eq_right (floorMul_le hg)]
  · rw [max_eq_left h, floorMul_floorMul (ne_of_gt hg), max_eq_left h]

/-- Upper-edge clamp of the snap is idempotent. -/
theorem clampHigh_idem (x p : ℚ) {g : ℚ} (hg : 0 < g) :
    min ((⌈(min ((⌈x / g⌉ : ℚ) * g) p) / g⌉ : ℚ) * g) p = min ((⌈x / g⌉ : ℚ) * g) p := by
  rcases le_total ((⌈x / g⌉ : ℚ) * g) p with h | h
  · rw [min_eq_left h, ceilMul_ceilMul (ne_of_gt hg), min_eq_left h]
  · rw [min_eq_right h, min_eq_right (le_ceilMul hg)]

/- ----------------- claim theorems: paths and parameters ----------------- -/

/-- Claim C2 (refuted; the source contradicts its own output-naming
helper): handle_file dispatches case-insensitively, but process_pdf
derives its output path with `input_path.replace(".pdf", ...)`.  On an
upper-case extension the replacement finds nothing and the document is
saved over the input; on a path containing ".pdf" elsewhere the
directory part is rewritten too.  The docx branch, via
create_output_filename, behaves as the claim states. -/
theorem handle_file_pdf_output_path_breaks :
    handle_file "/docs/report.PDF" = FileAction.savedPdf "/docs/report.PDF" ∧
    handle_file "/archive.pdf.bak/report.pdf" =
      FileAction.savedPdf "/archive-Accessible-Copy.pdf.bak/report-Accessible-Copy.pdf" ∧
    create_output_filename "/docs/report.docx" = "/docs/report-Accessible-Copy.docx" := by
  refine ⟨?_, ?_, ?_⟩ <;> decide

/-- Claim C3 (confirmed): process_pdf accepts grid_size and
merge_threshold but its body never reads them, so the produced
document, logs and output path are identical for any two values of
each parameter. -/
theorem process_pdf_ignores_parameters (path : String) (doc : List PageIn)
    (g₁ m₁ g₂ m₂ : ℚ) :
    process_pdf path doc g₁ m₁ = process_pdf path doc g₂ m₂ := rfl

/- ----------------- claim theorems: snap/clamp ----------------- -/

/-- Claim C4 counterexample: for the input rectangle (200,200,210,210),
page (0,0,100,100) and grid 10 — an input entirely outside the page —
the result of snap_rect_expand_and_clamp is (200,200,100,100), which
violates the claimed validity invariant x0 ≤ x1. -/
theorem snap_outside_page_not_valid :
    ¬ ((snap_rect_expand_and_clamp ⟨200, 200, 210, 210⟩ ⟨0, 0, 100, 100⟩ 10).x0 ≤
       (snap_rect_expand_and_clamp ⟨200, 200, 210, 210⟩ ⟨0, 0, 100, 100⟩ 10).x1) := by
  have h1 : ⌊(200 : ℚ) / 10⌋ = (20 : ℤ) := by rw [Int.floor_eq_iff] <;> norm_num
  have h2 : ⌈(210 : ℚ) / 10⌉ = (21 : ℤ) := by rw [Int.ceil_eq_iff] <;> norm_num
  have h : snap_rect_expand_and_clamp ⟨200, 200, 210, 210⟩ ⟨0, 0, 100, 100⟩ 10 =
      ⟨200, 200, 100, 100⟩ := by
    simp only [snap_rect_expand_and_clamp]
    norm_num [h1, h2, Rect.mk.injEq, max_def, min_def]
  rw [h]
  norm_num

/-- Claim C4 amended: for a valid page rectangle, a positive grid size
and a valid input rectangle that meets the page in both axes (in
particular any input contained in the page), the output of
snap_rect_expand_and_clamp is a valid rectangle (x0 ≤ x1, y0 ≤ y1,
possibly of zero area) fully contained in the page; an input lying
entirely outside the page instead yields an inverted rectangle. -/
theorem snap_rect_valid_and_contained (r p : Rect) (g : ℚ) (hg : 0 < g)
    (hpx : p.x0 ≤ p.x1) (hpy : p.y0 ≤ p.y1)
    (hrx : r.x0 ≤ r.x1) (hry : r.y0 ≤ r.y1)
    (hmx1 : r.x0 ≤ p.x1) (hmx2 : p.x0 ≤ r.x1)
    (hmy1 : r.y0 ≤ p.y1) (hmy2 : p.y0 ≤ r.y1) :
    ((snap_rect_expand_and_clamp r p g).x0 ≤ (snap_rect_expand_and_clamp r p g).x1 ∧
     (snap_rect_expand_and_clamp r p g).y0 ≤ (snap_rect_expand_and_clamp r p g).y1) ∧
    (p.x0 ≤ (snap_rect_expand_and_clamp r p g).x0 ∧
     (snap_rect_expand_and_clamp r p g).x1 ≤ p.x1 ∧
     p.y0 ≤ (snap_rect_expand_and_clamp r p g).y0 ∧
     (snap_rect_expand_and_clamp r p g).y1 ≤ p.y1) := by
  unfold snap_rect_expand_and_clamp
  refine ⟨⟨?_, ?_⟩, le_max_right _ _, min_le_right _ _, le_max_right _ _, min_le_right _ _⟩
  · exact le_min
      (max_le ((floorMul_le hg).trans (hrx.trans (le_ceilMul hg)))
        (hmx2.trans (le_ceilMul hg)))
      (max_le ((floorMul_le hg).trans hmx1) hpx)
  · exact le_min
      (max_le ((floorMul_le hg).trans (hry.trans (le_ceilMul hg)))
        (hmy2.trans (le_ceilMul hg)))
      (max_le ((floorMul_le hg).trans hmy1) hpy)

/-- Witness for the amended C4 theorem at rectangle (12,13,47,58),
page (0,0,100,100) and grid 10. -/
theorem snap_rect_valid_and_contained_witness :
    ((snap_rect_expand_and_clamp ⟨12, 13, 47, 58⟩ ⟨0, 0, 100, 100⟩ 10).x0 ≤
       (snap_rect_expand_and_clamp ⟨12, 13, 47, 58⟩ ⟨0, 0, 100, 100⟩ 10).x1 ∧
     (snap_rect_expand_and_clamp ⟨12, 13, 47, 58⟩ ⟨0, 0, 100, 100⟩ 10).y0 ≤
       (snap_rect_expand_and_clamp ⟨12, 13, 47, 58⟩ ⟨0, 0, 100, 100⟩ 10).y1) ∧
    ((0 : ℚ) ≤ (snap_rect_expand_and_clamp ⟨12, 13, 47, 58⟩ ⟨0, 0, 100, 100⟩ 10).x0 ∧
     (snap_rect_expand_and_clamp ⟨12, 13, 47, 58⟩ ⟨0, 0, 100, 100⟩ 10).x1 ≤ 100 ∧
     (0 : ℚ) ≤ (snap_rect_expand_and_clamp ⟨12, 13, 47, 58⟩ ⟨0, 0, 100, 100⟩ 10).y0 ∧
     (snap_rect_expand_and_clamp ⟨12, 13, 47, 58⟩ ⟨0, 0, 100, 100⟩ 10).y1 ≤ 100) :=
  snap_rect_valid_and_contained ⟨12, 13, 47, 58⟩ ⟨0, 0, 100, 100⟩ 10 (by norm_num)
    (by norm_num) (by norm_num) (by norm_num) (by norm_num) (by norm_num)
    (by norm_num) (by norm_num) (by norm_num)

/-- Claim C8 (confirmed): snap_rect_expand_and_clamp is idempotent for
every rectangle, page rectangle and positive grid size. -/
theorem snap_rect_idempotent (r p : Rect) (g : ℚ) (hg : 0 < g) :
    snap_rect_expand_and_clamp (snap_rect_expand_and_clamp r p g) p g =
      snap_rect_expand_and_clamp r p g := by
  unfold snap_rect_expand_and_clamp
  simp only [Rect.mk.injEq]
  exact ⟨clampLow_idem r.x0 p.x0 hg, clampLow_idem r.y0 p.y0 hg,
    clampHigh_idem r.x1 p.x1 hg, clampHigh_idem r.y1 p.y1 hg⟩

/-- Witness for the C8 theorem at rectangle (3,4,18,27), page
(0,0,100,100) and grid 10. -/
theorem snap_rect_idempotent_witness :
    snap_rect_expand_and_clamp
        (snap_rect_expand_and_clamp ⟨3, 4, 18, 27⟩ ⟨0, 0, 100, 100⟩ 10) ⟨0, 0, 100, 100⟩ 10 =
      snap_rect_expand_and_clamp ⟨3, 4, 18, 27⟩ ⟨0, 0, 100, 100⟩ 10 :=
  snap_rect_idempotent ⟨3, 4, 18, 27⟩ ⟨0, 0, 100, 100⟩ 10 (by norm_num)

/- ----------------- sorting lemmas ----------------- -/

/-- Inserting a block is a permutation of consing it. -/
theorem insertByY_perm (b : Block) : ∀ l : List Block, List.Perm (insertByY b l) (b :: l)
  | [] => List.Perm.refl _
  | c :: cs => by
    rw [insertByY]
    split
    · exact List.Perm.refl _
    · exact ((insertByY_perm b cs).cons c).trans (List.Perm.swap b c cs)

/-- The stable sort permutes its input. -/
theorem sortByY_perm : ∀ l : List Block, List.Perm (sortByY l) l
  | [] => List.Perm.refl _
  | b :: bs => (insertByY_perm b (sortByY bs)).trans ((sortByY_perm bs).cons b)

/-- Inserting into a key-sorted list keeps it key-sorted. -/
theorem insertByY_pairwise {b : Block} :
    ∀ {l : List Block}, List.Pairwise (fun a c => blockKey a ≤ blockKey c) l →
      List.Pairwise (fun a c => blockKey a ≤ blockKey c) (insertByY b l) := by
  intro l h
  induction l with
  | nil => simp [insertByY]
  | cons c cs ih =>
    rw [List.pairwise_cons] at h
    obtain ⟨hc, hcs⟩ := h
    by_cases hbc : blockKey b ≤ blockKey c
    · rw [insertByY, if_pos hbc]
      refine List.pairwise_cons.mpr ⟨?_, List.pairwise_cons.mpr ⟨hc, hcs⟩⟩
      intro x hx
      rcases List.mem_cons.mp hx with rfl | hx'
      · exact hbc
      · exact hbc.trans (hc x hx')
    · rw [insertByY, if_neg hbc]
      refine List.pairwise_cons.mpr ⟨?_, ih hcs⟩
      intro x hx
      rcases List.mem_cons.mp ((insertByY_perm b cs).mem_iff.mp hx) with rfl | hx'
      · exact le_of_not_le hbc
      · exact hc x hx'

/-- The stable sort produces a list sorted by the y0 key. -/
theorem sortByY_pairwise :
    ∀ l : List Block, List.Pairwise (fun a c => blockKey a ≤ blockKey c) (sortByY l)
  | [] => List.Pairwise.nil
  | b :: bs => insertByY_pairwise (sortByY_pairwise bs)

/-- Inserting a block commutes with filtering on an exact key value:
the inserted block lands in front of the survivors exactly when its
own key matches, because every element it is placed behind has a
strictly smaller key. -/
theorem insertByY_filter (b : Block) (k : ℚ) :
    ∀ l : List Block,
      (insertByY b l).filter (fun x => decide (blockKey x = k)) =
        if blockKey b = k then b :: l.filter (fun x => decide (blockKey x = k))
        else l.filter (fun x => decide (blockKey x = k)) := by
  intro l
  induction l with
  | nil => by_cases hb : blockKey b = k <;> simp [insertByY, hb]
  | cons c cs ih =>
    by_cases hbc : blockKey b ≤ blockKey c
    · rw [insertByY, if_pos hbc]
      by_cases hb : blockKey b = k <;> simp [List.filter_cons, hb]
    · rw [insertByY, if_neg hbc]
      have hcb : blockKey c < blockKey b := lt_of_not_le hbc
      by_cases hb : blockKey b = k
      · have hck : ¬ blockKey c = k := by rw [← hb]; exact ne_of_lt hcb
        simp [List.filter_cons, hck, ih, hb]
      · simp [List.filter_cons, ih, hb]

/-- Stability of the sort: elements with any fixed key keep their
original relative order. -/
theorem sortByY_filter_stable (k : ℚ) :
    ∀ l : List Block,
      (sortByY l).filter (fun x => decide (blockKey x = k)) =
        l.filter (fun x => decide (blockKey x = k)) := by
  intro l
  induction l with
  | nil => rfl
  | cons b bs ih =>
    rw [sortByY, insertByY_filter]
    by_cases hb : blockKey b = k <;> simp [List.filter_cons, hb, ih]

/- ----------------- line-conservation lemmas ----------------- -/

/-- All lines of a list of blocks, block order kept. -/
def linesOfBlocks (bs : List Block) : List Line := (bs.map Block.lines).flatten

/-- Permuting a list of lists permutes the concatenation. -/
theorem perm_flatten {α : Type} {l₁ l₂ : List (List α)} (h : List.Perm l₁ l₂) :
    List.Perm l₁.flatten l₂.flatten := by
  induction h with
  | nil => exact List.Perm.refl _
  | cons x _ ih =>
    rw [List.flatten_cons, List.flatten_cons]
    exact ih.append_left x
  | swap x y l =>
    rw [List.flatten_cons, List.flatten_cons, List.flatten_cons, List.flatten_cons,
      ← List.append_assoc, ← List.append_assoc]
    exact List.perm_append_comm.append_right _
  | trans _ _ ih₁ ih₂ => exact ih₁.trans ih₂

/-- Lines of a cons of blocks. -/
theorem linesOfBlocks_cons (b : Block) (bs : List Block) :
    linesOfBlocks (b :: bs) = b.lines ++ linesOfBlocks bs := by
  simp [linesOfBlocks]

/-- The merge loop emits exactly the accumulator's lines followed by
all remaining blocks' lines, in order. -/
theorem mergeLoop_linesOf (t : ℚ) :
    ∀ (l : List Block) (cur : Block),
      linesOfBlocks (mergeLoop t cur l) = cur.lines ++ linesOfBlocks l
  | [], cur => by simp [mergeLoop, linesOfBlocks]
  | b :: bs, cur => by
    rw [mergeLoop]
    split
    · rw [mergeLoop_linesOf t bs]
      simp [linesOfBlocks_cons, List.append_assoc]
    · rw [linesOfBlocks_cons, mergeLoop_linesOf t bs b, linesOfBlocks_cons,
        ← List.append_assoc]

/-- Filtering on type 0 is the identity on all-text block lists. -/
theorem filter_type0_eq_self :
    ∀ {bs : List Block}, (∀ b ∈ bs, b.type = 0) →
      bs.filter (fun b => decide (b.type = 0)) = bs := by
  intro bs h0
  induction bs with
  | nil => rfl
  | cons b bs ih =>
    have hb : b.type = 0 := h0 b (by simp)
    simp [List.filter_cons, hb, ih fun x hx => h0 x (List.mem_cons_of_mem b hx)]

/- ----------------- claim theorems: BlockMerger ----------------- -/

/-- Claim C5 (confirmed): for text-block input and a non-negative
threshold, merging neither drops nor duplicates lines — the multiset
of all lines across the output of merge_text_blocks equals the
multiset of all lines across the input. -/
theorem merge_text_blocks_conserves_lines (bs : List Block) (t : ℚ)
    (ht : 0 ≤ t) (h0 : ∀ b ∈ bs, b.type = 0) :
    (linesOfBlocks (merge_text_blocks bs t) : Multiset Line) =
      (linesOfBlocks bs : Multiset Line) := by
  rw [Multiset.coe_eq_coe]
  unfold merge_text_blocks
  rw [filter_type0_eq_self h0]
  have hperm : List.Perm (sortByY bs) bs := sortByY_perm bs
  rcases hs : sortByY bs with _ | ⟨b, rest⟩
  · rw [hs] at hperm
    have hbs : bs = [] := hperm.symm.eq_nil
    subst hbs
    exact List.Perm.refl _
  · rw [hs] at hperm
    rw [mergeLoop_linesOf]
    have h2 := perm_flatten (hperm.map Block.lines)
    simpa [linesOfBlocks] using h2

/-- Witness for the C5 theorem on two concrete text blocks. -/
theorem merge_text_blocks_conserves_lines_witness :
    (linesOfBlocks (merge_text_blocks
        [⟨0, true, ⟨0, 0, 100, 20⟩, [⟨[]⟩]⟩, ⟨0, true, ⟨1, 30, 100, 50⟩, [⟨[]⟩, ⟨[]⟩]⟩] 15)
      : Multiset Line) =
      (linesOfBlocks
        [⟨0, true, ⟨0, 0, 100, 20⟩, [⟨[]⟩]⟩, ⟨0, true, ⟨1, 30, 100, 50⟩, [⟨[]⟩, ⟨[]⟩]⟩]
      : Multiset Line) :=
  merge_text_blocks_conserves_lines _ 15 (by norm_num) (by simp)

/-- Fold of the spec's merge algorithm (section 4.3), transcribed from
the spec: compute the vertical gap to the accumulator, merge when it
is within the threshold and the left edges are within 5 units, else
emit the accumulator and restart from the next block; the final
accumulator is emitted at the end. -/
def referenceMergeStep (t : ℚ) : Block → List Block → List Block
  | cur, [] => [cur]
  | cur, nxt :: rest =>
    let verticalGap := nxt.bbox.y0 - cur.bbox.y1
    if verticalGap ≤ t ∧ |nxt.bbox.x0 - cur.bbox.x0| < 5 then
      referenceMergeStep t
        { cur with bbox := unionBBox cur.bbox nxt.bbox, lines := cur.lines ++ nxt.lines } rest
    else
      cur :: referenceMergeStep t nxt rest

/-- Reference algorithm of the spec for merging text blocks: sort by
y0 ascending, then fold with one accumulator. -/
def referenceMergeTextBlocks (blocks : List Block) (verticalThreshold : ℚ) : List Block :=
  match sortByY blocks with
  | [] => []
  | b :: rest => referenceMergeStep verticalThreshold b rest

/-- The source loop and the spec's fold coincide. -/
theorem mergeLoop_eq_referenceStep (t : ℚ) :
    ∀ (l : List Block) (cur : Block), mergeLoop t cur l = referenceMergeStep t cur l
  | [], cur => rfl
  | b :: bs, cur => by
    rw [mergeLoop, referenceMergeStep]
    split
    · exact mergeLoop_eq_referenceStep t bs _
    · rw [mergeLoop_eq_referenceStep t bs b]

/-- Claim C6 (confirmed): on text-block input merge_text_blocks equals
the reference fold of the spec (sort by y0, one accumulator, merge iff
gap ≤ threshold and left edges within 5, union bbox, append lines);
the empty input gives the empty output and a single text block passes
through unchanged. -/
theorem merge_text_blocks_matches_reference (bs : List Block) (t : ℚ) (b : Block)
    (h0 : ∀ x ∈ bs, x.type = 0) :
    merge_text_blocks bs t = referenceMergeTextBlocks bs t ∧
    merge_text_blocks [] t = [] ∧
    (b.type = 0 → merge_text_blocks [b] t = [b]) := by
  refine ⟨?_, rfl, ?_⟩
  · unfold merge_text_blocks referenceMergeTextBlocks
    rw [filter_type0_eq_self h0]
    rcases sortByY bs with _ | ⟨c, rest⟩
    · rfl
    · exact mergeLoop_eq_referenceStep t rest c
  · intro hb
    unfold merge_text_blocks
    simp [List.filter_cons, hb, sortByY, insertByY, mergeLoop]

/-- Witness for the C6 theorem on concrete blocks. -/
theorem merge_text_blocks_matches_reference_witness :
    merge_text_blocks [⟨0, true, ⟨0, 0, 100, 20⟩, [⟨[]⟩]⟩] 15 =
        referenceMergeTextBlocks [⟨0, true, ⟨0, 0, 100, 20⟩, [⟨[]⟩]⟩] 15 ∧
    merge_text_blocks [] 15 = [] ∧
    merge_text_blocks [⟨0, true, ⟨0, 0, 100, 20⟩, [⟨[]⟩]⟩] 15 =
      [⟨0, true, ⟨0, 0, 100, 20⟩, [⟨[]⟩]⟩] :=
  have h := merge_text_blocks_matches_reference [⟨0, true, ⟨0, 0, 100, 20⟩, [⟨[]⟩]⟩] 15
    ⟨0, true, ⟨0, 0, 100, 20⟩, [⟨[]⟩]⟩ (by simp)
  ⟨h.1, h.2.1, h.2.2 rfl⟩

/-- Claim C9 (confirmed): merge_text_blocks is deterministic — equal
inputs give equal ordered outputs — and its sort is an ascending
total-order sort on the y0 key that permutes the input and breaks ties
stably (blocks with equal y0 keep their original relative order). -/
theorem merge_text_blocks_deterministic_and_stable (bs₁ bs₂ : List Block) (t k : ℚ)
    (h : bs₁ = bs₂) :
    merge_text_blocks bs₁ t = merge_text_blocks bs₂ t ∧
    List.Pairwise (fun a c => blockKey a ≤ blockKey c) (sortByY bs₁) ∧
    List.Perm (sortByY bs₁) bs₁ ∧
    (sortByY bs₁).filter (fun x => decide (blockKey x = k)) =
      bs₁.filter (fun x => decide (blockKey x = k)) := by
  subst h
  exact ⟨rfl, sortByY_pairwise bs₁, sortByY_perm bs₁, sortByY_filter_stable k bs₁⟩

/-- Witness for the C9 theorem on two concrete equal inputs. -/
theorem merge_text_blocks_deterministic_and_stable_witness :
    merge_text_blocks [⟨0, true, ⟨0, 0, 100, 20⟩, []⟩] 15 =
        merge_text_blocks [⟨0, true, ⟨0, 0, 100, 20⟩, []⟩] 15 ∧
    List.Pairwise (fun a c => blockKey a ≤ blockKey c)
      (sortByY [⟨0, true, ⟨0, 0, 100, 20⟩, []⟩]) ∧
    List.Perm (sortByY [⟨0, true, ⟨0, 0, 100, 20⟩, []⟩]) [⟨0, true, ⟨0, 0, 100, 20⟩, []⟩] ∧
    (sortByY [⟨0, true, ⟨0, 0, 100, 20⟩, []⟩]).filter (fun x => decide (blockKey x = 0)) =
      [⟨0, true, ⟨0, 0, 100, 20⟩, []⟩].filter (fun x => decide (blockKey x = 0)) :=
  merge_text_blocks_deterministic_and_stable _ _ 15 0 rfl

/- ----------------- claim theorems: RegionExtractor ----------------- -/

/-- Background heuristic exactly as claim C7 words it, for comparison
with the source: near-full-page means at least 98 percent of the page
width or height (the claim writes a weak inequality where the source
compares strictly). -/
abbrev claimBackgroundFilter (page_rect bbox : Rect) : Prop :=
  let near_full_width := bbox.width ≥ page_rect.width * (98 / 100)
  let near_full_height := bbox.height ≥ page_rect.height * (98 / 100)
  let aligned_left := |bbox.x0 - page_rect.x0| < 1
  let aligned_right := |bbox.x1 - page_rect.x1| < 1
  let aligned_top := |bbox.y0 - page_rect.y0| < 1
  let aligned_bottom := |bbox.y1 - page_rect.y1| < 1
  (near_full_width ∧ (aligned_top ∨ aligned_bottom))
    ∨ (near_full_height ∧ (aligned_left ∨ aligned_right))
    ∨ (near_full_width ∧ near_full_height ∧ aligned_left ∧ aligned_top)

/-- Retention rule of the amended claim C7, per image reference: keep
an image iff its rectangle resolves, both dimensions are at least 10,
and the source's (strict) background heuristic does not fire. -/
def imageKeepSpec (page_rect : Rect) (img : Img) : Option (Nat × Rect) :=
  match img.bboxRes with
  | none => none
  | some b =>
    if 10 ≤ b.width ∧ 10 ≤ b.height ∧ ¬ backgroundFilter page_rect b then
      some (img.xref, b)
    else
      none

/-- Unfolding of extract_images_with_bboxes on a cons, phrased through
the per-element retention rule. -/
theorem extract_cons (page_rect : Rect) (img : Img) (rest : List Img) :
    extract_images_with_bboxes page_rect (img :: rest) =
      match imageKeepSpec page_rect img with
      | some x => x :: extract_images_with_bboxes page_rect rest
      | none => extract_images_with_bboxes page_rect rest := by
  cases hb : img.bboxRes with
  | none => simp [extract_images_with_bboxes, imageKeepSpec, hb]
  | some b =>
    by_cases h1 : b.width < 10 ∨ b.height < 10
    · have hks : imageKeepSpec page_rect img = none := by
        simp only [imageKeepSpec, hb]
        rw [if_neg]
        rintro ⟨hw, hh, -⟩
        rcases h1 with h | h
        · exact absurd hw (not_le.mpr h)
        · exact absurd hh (not_le.mpr h)
      rw [hks]
      simp only [extract_images_with_bboxes, hb]
      rw [if_pos h1]
    · have h1' : ¬ (b.width < 10 ∨ b.height < 10) := h1
      push_neg at h1
      by_cases h2 : backgroundFilter page_rect b
      · have hks : imageKeepSpec page_rect img = none := by
          simp only [imageKeepSpec, hb]
          rw [if_neg]
          rintro ⟨-, -, hnb⟩
          exact hnb h2
        rw [hks]
        simp only [extract_images_with_bboxes, hb]
        rw [if_neg h1', if_pos h2]
      · have hks : imageKeepSpec page_rect img = some (img.xref, b) := by
          simp only [imageKeepSpec, hb]
          rw [if_pos ⟨h1.1, h1.2, h2⟩]
        rw [hks]
        simp only [extract_images_with_bboxes, hb]
        rw [if_neg h1', if_neg h2]

/-- Claim C7 counterexample: on a 600-wide page, an image spanning
exactly 98 percent of the page width (588 units), top-aligned and
passing the minimum-size filter, is RETAINED by
extract_images_with_bboxes (the source compares with a strict >),
while the claim's background heuristic (at least 98 percent) classes
it as excluded. -/
theorem extract_images_keeps_exact_98_percent :
    extract_images_with_bboxes ⟨0, 0, 600, 800⟩ [⟨7, some ⟨0, 0, 588, 40⟩, true⟩] =
      [(7, ⟨0, 0, 588, 40⟩)] ∧
    claimBackgroundFilter ⟨0, 0, 600, 800⟩ ⟨0, 0, 588, 40⟩ ∧
    (10 : ℚ) ≤ (Rect.mk 0 0 588 40).width ∧ (10 : ℚ) ≤ (Rect.mk 0 0 588 40).height := by
  refine ⟨?_, ?_, ?_, ?_⟩
  · norm_num [extract_images_with_bboxes, backgroundFilter, Rect.width, Rect.height,
      max_def, abs_sub_lt_iff]
  · norm_num [claimBackgroundFilter, Rect.width, Rect.height, max_def, abs_sub_lt_iff]
  · norm_num [Rect.width, max_def]
  · norm_num [Rect.height, max_def]

/-- Claim C7 amended: an image reference is retained iff its rectangle
resolves, both dimensions are at least the 10-unit minimum, and the
background heuristic — near-full-page meaning STRICTLY more than 98
percent of the page dimension, edge-aligned within 1 unit — does not
fire; in particular a full 600 by 800 page image is excluded, a
full-width top band is excluded, a 200 by 150 centered image is
retained, and a 5 by 5 image fails the minimum-size filter. -/
theorem extract_images_retention_rule :
    (∀ (page_rect : Rect) (imgs : List Img),
        extract_images_with_bboxes page_rect imgs = imgs.filterMap (imageKeepSpec page_rect)) ∧
    extract_images_with_bboxes ⟨0, 0, 600, 800⟩ [⟨1, some ⟨0, 0, 600, 800⟩, true⟩] = [] ∧
    extract_images_with_bboxes ⟨0, 0, 600, 800⟩ [⟨2, some ⟨0, 0, 600, 40⟩, true⟩] = [] ∧
    extract_images_with_bboxes ⟨0, 0, 600, 800⟩ [⟨3, some ⟨200, 325, 400, 475⟩, true⟩] =
      [(3, ⟨200, 325, 400, 475⟩)] ∧
    extract_images_with_bboxes ⟨0, 0, 600, 800⟩ [⟨4, some ⟨0, 0, 5, 5⟩, true⟩] = [] := by
  refine ⟨?_, ?_, ?_, ?_, ?_⟩
  · intro page_rect imgs
    induction imgs with
    | nil => rfl
    | cons img rest ih =>
      rw [extract_cons, List.filterMap_cons]
      cases imageKeepSpec page_rect img <;> simp [ih]
  · norm_num [extract_images_with_bboxes, backgroundFilter, Rect.width, Rect.height,
      max_def, abs_sub_lt_iff]
  · norm_num [extract_images_with_bboxes, backgroundFilter, Rect.width, Rect.height,
      max_def, abs_sub_lt_iff]
  · norm_num [extract_images_with_bboxes, backgroundFilter, Rect.width, Rect.height,
      max_def, abs_sub_lt_iff]
  · norm_num [extract_images_with_bboxes, Rect.width, Rect.height, max_def]

/- ----------------- claim theorems: PageRewriter ----------------- -/

/-- First text line of the end-to-end scenario of the spec. -/
def lineA : Line := ⟨[⟨"alpha", (2, 16), 10, ⟨2, 4, 60, 18⟩⟩]⟩

/-- Second text line of the end-to-end scenario of the spec. -/
def lineB : Line := ⟨[⟨"beta", (3, 46), 10, ⟨3, 34, 60, 48⟩⟩]⟩

/-- Upper text block of the scenario: bbox (0,0,100,20). -/
def blockA : Block := ⟨0, true, ⟨0, 0, 100, 20⟩, [lineA]⟩

/-- Lower text block of the scenario: bbox (1,30,100,50) — vertical
gap 10 to blockA, left edges 1 unit apart. -/
def blockB : Block := ⟨0, true, ⟨1, 30, 100, 50⟩, [lineB]⟩

/-- One-page scenario document containing the two adjacent text
blocks and no images. -/
def scenarioPage : PageIn := ⟨⟨0, 0, 612, 792⟩, [blockA, blockB], []⟩

/-- Recognizer for the light-grey text-block outline drawn by step 4
of process_pdf (color (0.9,0.9,0.9)); one such call is made per
rendered text block. -/
def isTextOutline : DrawOp → Bool
  | DrawOp.drawRect _ (some c) _ _ _ => decide (c = (9/10, 9/10, 9/10))
  | _ => false

/-- Number of text-block outlines among a list of draw calls. -/
def countTextOutlines (ops : List DrawOp) : Nat := ops.countP isTextOutline

/-- Claim C1 (refuted by the source; the spec and the GUI parameters
are the intent, the code a slip): process_pdf never invokes
merge_text_blocks or extract_images_with_bboxes — on the spec's
one-page scenario (two text blocks, gap 10, left edges 1 apart,
threshold 15) it renders TWO separate text blocks, while
merge_text_blocks on the same blocks with threshold 15 would produce
the single merged block the claim describes, with both blocks' lines
in top-to-bottom order. -/
theorem process_pdf_bypasses_merger_and_filter :
    countTextOutlines ((process_pdf "doc.pdf" [scenarioPage] 10 15).pages.flatten) = 2 ∧
    merge_text_blocks [blockA, blockB] 15 = [⟨0, true, ⟨0, 0, 100, 50⟩, [lineA, lineB]⟩] := by
  constructor
  · have hA : ¬ (pyStrip "alpha" = "") := by decide
    have hB : ¬ (pyStrip "beta" = "") := by decide
    norm_num [process_pdf, processPage, imageLayerOps, textBlockOps, spanOps, scenarioPage,
      blockA, blockB, lineA, lineB, countTextOutlines, isTextOutline, List.countP_cons,
      Rect.width, Rect.height, max_def, hA, hB, Prod.mk.injEq]
    intro h
    have h1 := congrArg Prod.fst h
    norm_num at h1
  · norm_num [merge_text_blocks, blockA, blockB, List.filter_cons, sortByY, insertByY,
      blockKey, mergeLoop, unionBBox, max_def, min_def, abs_sub_lt_iff, Block.mk.injEq,
      Rect.mk.injEq]

/- ----------------- claim theorems: error handling ----------------- -/

/-- Claim C10 (confirmed): image failures are per-element and
non-fatal — an image reference whose bbox resolution fails is skipped
by extract_images_with_bboxes with all remaining retained images still
returned; a payload whose insertion fails is logged by the rewriter's
insertion loop and the loop continues with the next candidate; and
process_pdf always produces exactly one output page per input page,
whatever the images contain. -/
theorem image_failures_are_per_element :
    (∀ (page_rect : Rect) (pre post : List Img) (x : Nat) (okf : Bool),
        extract_images_with_bboxes page_rect (pre ++ ⟨x, none, okf⟩ :: post) =
          extract_images_with_bboxes page_rect (pre ++ post)) ∧
    (∀ (img : Img) (rest : List Img), img.ok = false →
        insertLoop (img :: rest) =
          ((insertLoop rest).1,
            ("Error inserting image: " ++ toString img.xref) :: (insertLoop rest).2)) ∧
    (∀ (path : String) (doc : List PageIn) (g m : ℚ),
        (process_pdf path doc g m).pages.length = doc.length) := by
  refine ⟨?_, ?_, ?_⟩
  · intro page_rect pre post x okf
    induction pre with
    | nil =>
      rw [List.nil_append, List.nil_append, extract_cons]
      simp [imageKeepSpec]
    | cons p pre ih =>
      rw [List.cons_append, List.cons_append, extract_cons, extract_cons, ih]
  · intro img rest h
    simp [insertLoop, h]
  · intro path doc g m
    simp [process_pdf]

/-- Witness for the C10 theorem: a failing bbox resolution between two
good images, a failing payload ahead of a good one, and a one-page
document. -/
theorem image_failures_are_per_element_witness :
    extract_images_with_bboxes ⟨0, 0, 600, 800⟩
        ([⟨1, some ⟨10, 10, 200, 200⟩, true⟩] ++ ⟨9, none, true⟩ ::
          [⟨2, some ⟨20, 20, 300, 300⟩, true⟩]) =
      extract_images_with_bboxes ⟨0, 0, 600, 800⟩
        ([⟨1, some ⟨10, 10, 200, 200⟩, true⟩] ++ [⟨2, some ⟨20, 20, 300, 300⟩, true⟩]) ∧
    insertLoop [⟨9, none, false⟩, ⟨5, some ⟨0, 0, 50, 50⟩, true⟩] =
      ((insertLoop [⟨5, some ⟨0, 0, 50, 50⟩, true⟩]).1,
        ("Error inserting image: " ++ toString (9 : Nat)) ::
          (insertLoop [⟨5, some ⟨0, 0, 50, 50⟩, true⟩]).2) ∧
    (process_pdf "a.pdf" [⟨⟨0, 0, 10, 10⟩, [], []⟩] 10 15).pages.length = 1 :=
  ⟨image_failures_are_per_element.1 ⟨0, 0, 600, 800⟩ [⟨1, some ⟨10, 10, 200, 200⟩, true⟩]
      [⟨2, some ⟨20, 20, 300, 300⟩, true⟩] 9 true,
    image_failures_are_per_element.2.1 ⟨9, none, false⟩ [⟨5, some ⟨0, 0, 50, 50⟩, true⟩] rfl,
    image_failures_are_per_element.2.2 "a.pdf" [⟨⟨0, 0, 10, 10⟩, [], []⟩] 10 15⟩

end AccessConv
